import Mathlib

/-!
Shallow embedding of the WinManus repository's orchestration core.

Source files embedded here:
* `src/lib/agent/AgentLoop.ts` — the `AgentLoop` class (task state machine,
  snapshot broadcasting, plan/execute/observe/update phases).
* `src/app/api/ws/route.ts` — the `WebSocketManager` class (client-side
  notification channel with reconnect backoff) and `getWebSocketManager`.

Modelling conventions:
* TypeScript exceptions are modelled with explicit `thrown` result
  constructors; a phase either returns a value or throws a message, in both
  cases having mutated the loop state.
* The bodies of the four phase strategies contain `await` points that may
  reject at runtime; an `Env` record supplies, per phase invocation, whether
  that await rejects (and the update strategy's continue flag).  `sourceEnv`
  instantiates `Env` with exactly what the source's placeholder bodies
  produce: a fixed four-step plan, no rejections, continue always true.
* `Math.floor((i / n) * k)` is embedded as natural division `i * k / n`
  (the exact real floor; for the source's four-step plans the JavaScript
  double computation is exact and coincides).
* `Date.now()` is modelled by a logical clock that ticks at each snapshot.
* Snapshots delivered to subscribers are recorded in a `trace` list: the
  source's `updateState` synchronously hands a copy of the new state to
  every registered callback, so the sequence each subscriber observes is
  exactly the sequence of states appended to `trace`.
* Callback references (for subscribe/unsubscribe) are modelled as numeric
  identities: JavaScript `!==` on functions is reference inequality.
-/

namespace WinManus

/-- `AgentState.status` union type from `AgentLoop.ts`. -/
inductive Status where
  | idle | planning | executing | observing | updating | completed | error
  deriving DecidableEq, Repr

/-- The `any`-typed values the source stores in `results` and in history
entries: the plan array (planning entry), the `{stepCompleted, output}`
record (execution), the `{analysisOf, feedback}` record (observation) and
the `{updatedPlan}` record (plan-update). -/
inductive Val where
  | vplan : List String → Val
  | vstep : String → String → Val
  | vobs  : Val → String → Val
  | vupd  : List String → Val
  deriving DecidableEq, Repr

/-- One entry of `AgentState.history`: `{action, result, timestamp}`. -/
structure HistoryEntry where
  action : String
  result : Val
  timestamp : Nat
  deriving DecidableEq, Repr

/-- The `AgentState` record type from `AgentLoop.ts`. -/
structure AgentState where
  status : Status
  currentTask : Option String
  plan : List String
  progress : Nat
  currentStep : Option String
  results : List Val
  error : Option String
  history : List HistoryEntry
  deriving DecidableEq, Repr

/-- `Partial<AgentState>`: each field optionally present.  A `none` field is
absent from the update object. -/
structure PartialState where
  status : Option Status := none
  currentTask : Option (Option String) := none
  plan : Option (List String) := none
  progress : Option Nat := none
  currentStep : Option (Option String) := none
  results : Option (List Val) := none
  error : Option (Option String) := none
  history : Option (List HistoryEntry) := none

/-- The spread merge `{ ...state, ...updates }` used by
`AgentLoop.updateState`: a field named in the update wins, every other
field keeps its previous value. -/
def merge (s : AgentState) (p : PartialState) : AgentState where
  status := p.status.getD s.status
  currentTask := p.currentTask.getD s.currentTask
  plan := p.plan.getD s.plan
  progress := p.progress.getD s.progress
  currentStep := p.currentStep.getD s.currentStep
  results := p.results.getD s.results
  error := p.error.getD s.error
  history := p.history.getD s.history

/-- The mutable data of one `AgentLoop` instance together with the sequence
of snapshots delivered to subscribers (`trace`) and a logical clock standing
in for `Date.now()`. -/
structure Loop where
  state : AgentState
  taskRunning : Bool
  trace : List AgentState
  clock : Nat
  deriving DecidableEq, Repr

/-- The constructor's initial `AgentState`. -/
def initState : AgentState :=
  { status := .idle, currentTask := none, plan := [], progress := 0,
    currentStep := none, results := [], error := none, history := [] }

/-- A freshly constructed `AgentLoop`. -/
def initLoop : Loop :=
  { state := initState, taskRunning := false, trace := [], clock := 0 }

/-- `AgentLoop.updateState`: merge the partial update over the state and
synchronously deliver a copy of the new state to every subscriber. -/
def updateState (l : Loop) (p : PartialState) : Loop :=
  let s := merge l.state p
  { l with state := s, trace := l.trace ++ [s], clock := l.clock + 1 }

/-- Outcomes of the phase strategies' await points for one task run:
whether each invocation's awaited work rejects (with which message), and the
update strategy's continue flag per step. -/
structure Env where
  planOutcome : Except String (List String)
  execThrow : Nat → Option String
  obsThrow : Nat → Option String
  updThrow : Nat → Option String
  updContinue : Nat → Bool

/-- The fixed four-step plan the source's `planTask` body builds from the
task string. -/
def sourcePlan (task : String) : List String :=
  [ "タスク \"" ++ task ++ "\" の情報収集",
    "タスク \"" ++ task ++ "\" の分析",
    "タスク \"" ++ task ++ "\" の実行",
    "タスク \"" ++ task ++ "\" の結果のまとめ" ]

/-- The environment realised by the source's placeholder strategy bodies:
the four-step plan, no rejections anywhere, `updatePlan` returns `true`. -/
def sourceEnv (task : String) : Env :=
  { planOutcome := .ok (sourcePlan task),
    execThrow := fun _ => none, obsThrow := fun _ => none,
    updThrow := fun _ => none, updContinue := fun _ => true }

/-- The update object every catch block passes to `updateState`:
`{status: 'error', error: message}`. -/
def errorFields (e : String) : PartialState :=
  { status := some .error, error := some (some e) }

/-- The full reset update `startTask` applies when it accepts a task. -/
def resetFields (task : String) : PartialState :=
  { status := some .planning, currentTask := some (some task),
    plan := some [], progress := some 0, currentStep := some none,
    results := some [], error := some none, history := some [] }

/-- The execute-phase boundary update:
`{status: 'executing', currentStep: step, progress: floor(i/n*50)}`. -/
def executingFields (step : String) (i n : Nat) : PartialState :=
  { status := some .executing, currentStep := some (some step),
    progress := some (i * 50 / n) }

/-- The observe-phase boundary update:
`{status: 'observing', progress: floor(i/n*70)}`. -/
def observingFields (i n : Nat) : PartialState :=
  { status := some .observing, progress := some (i * 70 / n) }

/-- The update-phase boundary update:
`{status: 'updating', progress: floor(i/n*90)}`. -/
def updatingFields (i n : Nat) : PartialState :=
  { status := some .updating, progress := some (i * 90 / n) }

/-- The terminal update after the loop:
`{status: 'completed', progress: 100, currentStep: null}`. -/
def completedFields : PartialState :=
  { status := some .completed, progress := some 100, currentStep := some none }

/-- `AgentLoop.planTask`: on success set the plan, progress 10, append a
`planning` history entry; on failure the catch block records the error
without rethrowing. -/
def planTask (env : Env) (l : Loop) : Loop :=
  match env.planOutcome with
  | .ok plan =>
      updateState l
        { plan := some plan, progress := some 10,
          history := some (l.state.history ++
            [{ action := "planning", result := Val.vplan plan,
               timestamp := l.clock }]) }
  | .error e => updateState l (errorFields e)

/-- Result of a phase method that may throw: the value returned (or message
thrown) together with the loop after the phase's state updates. -/
inductive PhaseResult (α : Type) where
  | ok : α → Loop → PhaseResult α
  | thrown : String → Loop → PhaseResult α
  deriving Repr

/-- The loop carried by a `PhaseResult`, whichever way the phase ended. -/
def PhaseResult.loop {α : Type} : PhaseResult α → Loop
  | .ok _ l => l
  | .thrown _ l => l

/-- `AgentLoop.executeStep`: on success build the
`{stepCompleted, output}` record, append it to `results` and to `history`,
and return it; on failure the catch block records the error and rethrows. -/
def executeStep (env : Env) (i : Nat) (step : String) (l : Loop) :
    PhaseResult Val :=
  match env.execThrow i with
  | none =>
      let result := Val.vstep step (step ++ " の実行結果")
      .ok result (updateState l
        { results := some (l.state.results ++ [result]),
          history := some (l.state.history ++
            [{ action := "execution", result := result,
               timestamp := l.clock }]) })
  | some e => .thrown e (updateState l (errorFields e))

/-- `AgentLoop.observeResult`: on success build the
`{analysisOf, feedback}` record, append an `observation` history entry and
return it; on failure record the error and rethrow. -/
def observeResult (env : Env) (i : Nat) (result : Val) (l : Loop) :
    PhaseResult Val :=
  match env.obsThrow i with
  | none =>
      let observation := Val.vobs result "正常に完了"
      .ok observation (updateState l
        { history := some (l.state.history ++
            [{ action := "observation", result := observation,
               timestamp := l.clock }]) })
  | some e => .thrown e (updateState l (errorFields e))

/-- `AgentLoop.updatePlan`: on success copy the current plan, append a
`plan-update` history entry and return the continue flag; on failure record
the error and rethrow. -/
def updatePlan (env : Env) (i : Nat) (observation : Val) (l : Loop) :
    PhaseResult Bool :=
  match env.updThrow i with
  | none =>
      let updatedPlan := l.state.plan
      .ok (env.updContinue i) (updateState l
        { plan := some updatedPlan,
          history := some (l.state.history ++
            [{ action := "plan-update", result := Val.vupd updatedPlan,
               timestamp := l.clock }]) })
  | some e => .thrown e (updateState l (errorFields e))

/-- How `runAgentLoop` ends: falling through to the terminal update
(`normal`, covering both loop exhaustion and the continue-flag break), an
early `return` statement, or a propagating exception. -/
inductive StepsExit where
  | normal : Loop → StepsExit
  | earlyReturn : Loop → StepsExit
  | thrown : String → Loop → StepsExit
  deriving Repr

/-- The loop carried by a `StepsExit`. -/
def StepsExit.loop : StepsExit → Loop
  | .normal l => l
  | .earlyReturn l => l
  | .thrown _ l => l

/-- The `for` loop of `AgentLoop.runAgentLoop`: for each step, the
execute/observe/update phase boundaries and phase calls, the dead
status-check after `executeStep`, and the continue-flag break.  `fuel` is
the iteration budget (the plan length at entry; the plan never changes
during a run), and the guard `i < plan.length` is re-checked against the
live state each iteration as in the source. -/
def runSteps (env : Env) (fuel : Nat) (i : Nat) (l : Loop) : StepsExit :=
  match fuel with
  | 0 => .normal l
  | fuel + 1 =>
    if h : i < l.state.plan.length then
      let step := l.state.plan[i]
      let l1 := updateState l (executingFields step i l.state.plan.length)
      match executeStep env i step l1 with
      | .thrown e l2 => .thrown e l2
      | .ok result l2 =>
        if l2.state.status = .error then .earlyReturn l2
        else
          let l3 := updateState l2 (observingFields i l2.state.plan.length)
          match observeResult env i result l3 with
          | .thrown e l4 => .thrown e l4
          | .ok observation l4 =>
            let l5 := updateState l4 (updatingFields i l4.state.plan.length)
            match updatePlan env i observation l5 with
            | .thrown e l6 => .thrown e l6
            | .ok shouldContinue l6 =>
              if shouldContinue then runSteps env fuel (i + 1) l6
              else .normal l6
    else .normal l

/-- `AgentLoop.runAgentLoop`: plan, bail out on a planning error, run the
step loop, then apply the terminal `completed` update (skipped by early
returns and bypassed by propagating exceptions). -/
def runAgentLoop (env : Env) (l : Loop) : StepsExit :=
  let l1 := planTask env l
  if l1.state.status = .error then .earlyReturn l1
  else
    match runSteps env l1.state.plan.length 0 l1 with
    | .normal l2 => .normal (updateState l2 completedFields)
    | e => e

/-- `AgentLoop.startTask`: reject silently while the single-flight guard is
set; otherwise set the guard, apply the full state reset, run the loop with
its catch block, and release the guard in the `finally`. -/
def startTask (env : Env) (task : String) (l : Loop) : Loop :=
  if l.taskRunning then l
  else
    let l0 := { l with taskRunning := true }
    let l1 := updateState l0 (resetFields task)
    let l2 :=
      match runAgentLoop env l1 with
      | .normal lr => lr
      | .earlyReturn lr => lr
      | .thrown e lr => updateState lr (errorFields e)
    { l2 with taskRunning := false }

/-! ### WebSocketManager (`src/app/api/ws/route.ts`) -/

/-- The `readyState` of a browser `WebSocket` object. -/
inductive ReadyState where
  | connecting | opened | closing | closed
  deriving DecidableEq, Repr

/-- The `WebSocketState` record: `{isConnected, error}`. -/
structure WSState where
  isConnected : Bool
  error : Option String
  deriving DecidableEq, Repr

/-- One `WebSocketManager` instance.  `socket` models `this.socket` (with
its ready state; `none` is the `null` socket).  `stateTrace` records the
`WebSocketState` values pushed to state-change listeners.  `pending` holds
the delays of reconnect timers that have been scheduled by `handleClose`
via `setTimeout` and neither fired nor been cancelled; the source stores no
handle to these timers and never calls `clearTimeout`, so no method of the
class ever removes an entry except the timer itself firing. -/
structure WSManager where
  socket : Option ReadyState
  reconnectAttempts : Nat
  sessionId : String
  state : WSState
  stateTrace : List WSState
  pending : List ℚ
  deriving DecidableEq, Repr

/-- `maxReconnectAttempts = 5`. -/
def maxReconnectAttempts : Nat := 5

/-- `reconnectDelay = 1000` (milliseconds).  Delays are rationals because
`1000 * 1.5^4 = 5062.5` is not an integer (exact in doubles). -/
def reconnectDelay : ℚ := 1000

/-- `new WebSocketManager(sessionId)`. -/
def newWSManager (sessionId : String) : WSManager :=
  { socket := none, reconnectAttempts := 0, sessionId := sessionId,
    state := { isConnected := false, error := none },
    stateTrace := [], pending := [] }

/-- `WebSocketManager.updateState`: merge and notify state-change
listeners.  Every call site of the source names both fields, so the merged
record is passed directly. -/
def wsUpdateState (m : WSManager) (isConnected : Bool) (err : Option String) :
    WSManager :=
  let s : WSState := { isConnected := isConnected, error := err }
  { m with state := s, stateTrace := m.stateTrace ++ [s] }

/-- `WebSocketManager.connect`: no-op when the socket is open or
connecting, otherwise construct a new socket (which starts connecting). -/
def connect (m : WSManager) : WSManager :=
  match m.socket with
  | some .opened => m
  | some .connecting => m
  | _ => { m with socket := some .connecting }

/-- `WebSocketManager.disconnect`: when a socket exists, close it, null the
field, zero the attempt counter and publish the disconnected state.  The
source neither stores nor clears any reconnect timer here, so `pending` is
untouched. -/
def disconnect (m : WSManager) : WSManager :=
  match m.socket with
  | some _ =>
      wsUpdateState { m with socket := none, reconnectAttempts := 0 }
        false none
  | none => m

/-- The `open` event handler: the socket is now open; zero the attempt
counter and publish the connected state. -/
def handleOpen (m : WSManager) : WSManager :=
  wsUpdateState { m with socket := some .opened, reconnectAttempts := 0 }
    true none

/-- The `close` event handler: the socket is now closed; publish the
disconnected state (with a message for abnormal codes); on an abnormal
code, while under the attempt cap, increment the counter and schedule a
reconnect after `reconnectDelay * 1.5 ^ (attempts - 1)`. -/
def handleClose (m : WSManager) (code : Nat) (reason : String) : WSManager :=
  let m := { m with socket := some .closed }
  let m := wsUpdateState m false
    (if code ≠ 1000 then
        some ("Connection closed: " ++
          (if reason = "" then "Unknown reason" else reason))
      else none)
  if code ≠ 1000 ∧ m.reconnectAttempts < maxReconnectAttempts then
    let att := m.reconnectAttempts + 1
    { m with reconnectAttempts := att,
             pending := m.pending ++ [reconnectDelay * (3 / 2 : ℚ) ^ (att - 1)] }
  else m

/-- A scheduled reconnect timer firing: its callback is `() => this.connect()`. -/
def fireReconnect (m : WSManager) : WSManager :=
  match m.pending with
  | [] => m
  | _ :: rest => connect { m with pending := rest }

/-- An abnormal close event (a code other than 1000). -/
def abClose (m : WSManager) : WSManager := handleClose m 1006 ""

/-- `AgentLoop.onStateUpdate` registration: push the callback (modelled by
its reference identity) onto `updateCallbacks`. -/
def onStateUpdate (callbacks : List Nat) (cb : Nat) : List Nat :=
  callbacks ++ [cb]

/-- The unsubscribe function `onStateUpdate` returns:
`updateCallbacks.filter(cb => cb !== callback)`. -/
def offStateUpdate (callbacks : List Nat) (cb : Nat) : List Nat :=
  callbacks.filter (fun c => c ≠ cb)

/-- `WebSocketManager.addMessageListener` registration: push onto
`messageListeners`. -/
def addMessageListener (listeners : List Nat) (x : Nat) : List Nat :=
  listeners ++ [x]

/-- The unregister function `addMessageListener` returns:
`messageListeners.filter(l => l !== listener)`. -/
def removeMessageListener (listeners : List Nat) (x : Nat) : List Nat :=
  listeners.filter (fun c => c ≠ x)

/-- The module-level singleton `wsManager` and `getWebSocketManager`:
create the manager on the first call, thereafter return the stored instance
whatever `sessionId` is passed.  The module variable is threaded explicitly;
the returned pair is (result, new value of the module variable). -/
def getWebSocketManager (wsManager : Option WSManager) (sessionId : String) :
    WSManager × Option WSManager :=
  match wsManager with
  | none =>
      let m := newWSManager sessionId
      (m, some m)
  | some m => (m, some m)

end WinManus


namespace WinManus

/-! ### Run invariants

`RunOk l l\u0027` captures what every in-run mutation sequence satisfies: the
trace is only appended to, the appended snapshots have non-decreasing
history lengths starting from the pre-run state, the final state is the
last appended snapshot, and `currentTask` is never touched. -/

/-- Last element of a list, with a default for the empty list. -/
def lastD {α : Type} (ts : List α) (d : α) : α :=
  match ts with
  | [] => d
  | x :: xs => lastD xs x

lemma lastD_append {α : Type} (ts₁ ts₂ : List α) (d : α) :
    lastD (ts₁ ++ ts₂) d = lastD ts₂ (lastD ts₁ d) := by
  induction ts₁ generalizing d with
  | nil => rfl
  | cons a t ih => exact ih a

lemma lastD_mem {α : Type} (ts : List α) (d : α) :
    lastD ts d = d ∨ lastD ts d ∈ ts := by
  induction ts generalizing d with
  | nil => exact .inl rfl
  | cons a t ih =>
    rcases ih a with h | h
    · exact .inr (by simp [lastD, h])
    · exact .inr (List.mem_cons_of_mem a h)

lemma chain_append_lastD {α : Type} {R : α → α → Prop} (a : α)
    (ts₁ ts₂ : List α) (h₁ : List.Chain R a ts₁)
    (h₂ : List.Chain R (lastD ts₁ a) ts₂) : List.Chain R a (ts₁ ++ ts₂) := by
  induction ts₁ generalizing a with
  | nil => exact h₂
  | cons b t ih =>
    rcases List.chain_cons.mp h₁ with ⟨hab, hbt⟩
    exact List.chain_cons.mpr ⟨hab, ih b hbt h₂⟩

/-- Snapshot order on history length. -/
def HistLe (a b : AgentState) : Prop := a.history.length ≤ b.history.length

/-- Invariant relating a loop to the loop after any in-run mutation
sequence: append-only trace, history-length chain, last-snapshot state,
`currentTask` untouched. -/
def RunOk (l l2 : Loop) : Prop :=
  ∃ ts, l2.trace = l.trace ++ ts ∧ List.Chain HistLe l.state ts ∧
    lastD ts l.state = l2.state ∧
    ∀ s ∈ ts, s.currentTask = l.state.currentTask

lemma runOk_refl (l : Loop) : RunOk l l :=
  ⟨[], by simp, .nil, rfl, by simp⟩

lemma RunOk.currentTask_eq {l l2 : Loop} (h : RunOk l l2) :
    l2.state.currentTask = l.state.currentTask := by
  obtain ⟨ts, -, -, hlast, hct⟩ := h
  rcases lastD_mem ts l.state with he | hm
  · rw [← hlast, he]
  · rw [← hlast]; exact hct _ hm

lemma runOk_trans {l₁ l₂ l₃ : Loop} (h₁ : RunOk l₁ l₂) (h₂ : RunOk l₂ l₃) :
    RunOk l₁ l₃ := by
  have hct₂ := h₁.currentTask_eq
  obtain ⟨ts₁, ht₁, hc₁, hl₁, hm₁⟩ := h₁
  obtain ⟨ts₂, ht₂, hc₂, hl₂, hm₂⟩ := h₂
  refine ⟨ts₁ ++ ts₂, by rw [ht₂, ht₁, List.append_assoc], ?_, ?_, ?_⟩
  · exact chain_append_lastD _ _ _ hc₁ (by rw [hl₁]; exact hc₂)
  · rw [lastD_append, hl₁, hl₂]
  · intro s hs
    rcases List.mem_append.mp hs with hm | hm
    · exact hm₁ s hm
    · rw [hm₂ s hm]; exact hct₂

lemma runOk_update (l : Loop) (p : PartialState)
    (h1 : l.state.history.length ≤ (merge l.state p).history.length)
    (h2 : p.currentTask = none) : RunOk l (updateState l p) := by
  refine ⟨[merge l.state p], rfl, List.Chain.cons h1 .nil, rfl, ?_⟩
  intro s hs
  rw [List.mem_singleton.mp hs]
  simp [merge, h2]

lemma planTask_runOk (env : Env) (l : Loop) : RunOk l (planTask env l) := by
  cases hp : env.planOutcome with
  | ok plan =>
      simp only [planTask, hp]
      exact runOk_update _ _ (by simp [merge]) rfl
  | error e =>
      simp only [planTask, hp]
      exact runOk_update _ _ (by simp [merge, errorFields]) rfl

lemma executeStep_runOk (env : Env) (i : Nat) (step : String) (l : Loop) :
    RunOk l (executeStep env i step l).loop := by
  cases he : env.execThrow i with
  | none =>
      simp only [executeStep, he, PhaseResult.loop]
      exact runOk_update _ _ (by simp [merge]) rfl
  | some e =>
      simp only [executeStep, he, PhaseResult.loop]
      exact runOk_update _ _ (by simp [merge, errorFields]) rfl

lemma observeResult_runOk (env : Env) (i : Nat) (r : Val) (l : Loop) :
    RunOk l (observeResult env i r l).loop := by
  cases he : env.obsThrow i with
  | none =>
      simp only [observeResult, he, PhaseResult.loop]
      exact runOk_update _ _ (by simp [merge]) rfl
  | some e =>
      simp only [observeResult, he, PhaseResult.loop]
      exact runOk_update _ _ (by simp [merge, errorFields]) rfl

lemma updatePlan_runOk (env : Env) (i : Nat) (ob : Val) (l : Loop) :
    RunOk l (updatePlan env i ob l).loop := by
  cases he : env.updThrow i with
  | none =>
      simp only [updatePlan, he, PhaseResult.loop]
      exact runOk_update _ _ (by simp [merge]) rfl
  | some e =>
      simp only [updatePlan, he, PhaseResult.loop]
      exact runOk_update _ _ (by simp [merge, errorFields]) rfl

lemma runSteps_runOk (env : Env) : ∀ (fuel i : Nat) (l : Loop),
    RunOk l (runSteps env fuel i l).loop := by
  intro fuel
  induction fuel with
  | zero => intro i l; exact runOk_refl l
  | succ fuel ih =>
    intro i l
    rw [runSteps]
    by_cases hi : i < l.state.plan.length
    · rw [dif_pos hi]
      have h1 : RunOk l (updateState l
          (executingFields (l.state.plan[i]) i l.state.plan.length)) :=
        runOk_update _ _ (by simp [merge, executingFields]) rfl
      rcases hex : executeStep env i (l.state.plan[i]) (updateState l
          (executingFields (l.state.plan[i]) i l.state.plan.length)) with
        ⟨v, l2⟩ | ⟨e, l2⟩
      · have h2 : RunOk (updateState l
            (executingFields (l.state.plan[i]) i l.state.plan.length)) l2 := by
          have := executeStep_runOk env i (l.state.plan[i]) (updateState l
            (executingFields (l.state.plan[i]) i l.state.plan.length))
          rw [hex] at this; exact this
        simp only [hex]
        by_cases herr : l2.state.status = .error
        · rw [if_pos herr]
          exact runOk_trans h1 h2
        · rw [if_neg herr]
          have h3 : RunOk l2 (updateState l2
              (observingFields i l2.state.plan.length)) :=
            runOk_update _ _ (by simp [merge, observingFields]) rfl
          rcases hob : observeResult env i v (updateState l2
              (observingFields i l2.state.plan.length)) with
            ⟨w, l4⟩ | ⟨e, l4⟩
          · have h4 : RunOk (updateState l2
                (observingFields i l2.state.plan.length)) l4 := by
              have := observeResult_runOk env i v (updateState l2
                (observingFields i l2.state.plan.length))
              rw [hob] at this; exact this
            simp only [hob]
            have h5 : RunOk l4 (updateState l4
                (updatingFields i l4.state.plan.length)) :=
              runOk_update _ _ (by simp [merge, updatingFields]) rfl
            rcases hup : updatePlan env i w (updateState l4
                (updatingFields i l4.state.plan.length)) with
              ⟨b, l6⟩ | ⟨e, l6⟩
            · have h6 : RunOk (updateState l4
                  (updatingFields i l4.state.plan.length)) l6 := by
                have := updatePlan_runOk env i w (updateState l4
                  (updatingFields i l4.state.plan.length))
                rw [hup] at this; exact this
              simp only [hup]
              have hto6 : RunOk l l6 :=
                runOk_trans h1 (runOk_trans h2 (runOk_trans h3
                  (runOk_trans h4 (runOk_trans h5 h6))))
              cases b with
              | true =>
                  simp only [if_true]
                  exact runOk_trans hto6 (ih (i + 1) l6)
              | false => simpa using hto6
            · have h6 : RunOk (updateState l4
                  (updatingFields i l4.state.plan.length)) l6 := by
                have := updatePlan_runOk env i w (updateState l4
                  (updatingFields i l4.state.plan.length))
                rw [hup] at this; exact this
              simp only [hup]
              exact runOk_trans h1 (runOk_trans h2 (runOk_trans h3
                (runOk_trans h4 (runOk_trans h5 h6))))
          · have h4 : RunOk (updateState l2
                (observingFields i l2.state.plan.length)) l4 := by
              have := observeResult_runOk env i v (updateState l2
                (observingFields i l2.state.plan.length))
              rw [hob] at this; exact this
            simp only [hob]
            exact runOk_trans h1 (runOk_trans h2 (runOk_trans h3 h4))
      · have h2 : RunOk (updateState l
            (executingFields (l.state.plan[i]) i l.state.plan.length)) l2 := by
          have := executeStep_runOk env i (l.state.plan[i]) (updateState l
            (executingFields (l.state.plan[i]) i l.state.plan.length))
          rw [hex] at this; exact this
        simp only [hex]
        exact runOk_trans h1 h2
    · rw [dif_neg hi]
      exact runOk_refl l

lemma runAgentLoop_runOk (env : Env) (l : Loop) :
    RunOk l (runAgentLoop env l).loop := by
  have h1 := planTask_runOk env l
  unfold runAgentLoop
  by_cases herr : (planTask env l).state.status = .error
  · rw [if_pos herr]; exact h1
  · rw [if_neg herr]
    have h2 := runSteps_runOk env ((planTask env l).state.plan.length) 0
      (planTask env l)
    rcases hr : runSteps env ((planTask env l).state.plan.length) 0
        (planTask env l) with l2 | l2 | ⟨e, l2⟩
    all_goals rw [hr] at h2
    · have h3 : RunOk l2 (updateState l2 completedFields) :=
        runOk_update _ _ (by simp [merge, completedFields]) rfl
      exact runOk_trans h1 (runOk_trans h2 h3)
    · exact runOk_trans h1 h2
    · exact runOk_trans h1 h2

/-- Shape of an accepted `startTask` call: the trace is extended by the
reset snapshot followed by the run's snapshots, those snapshots have
non-decreasing history lengths and all carry the accepted task, the final
state is the last snapshot, and the guard is released on return. -/
lemma startTask_shape (env : Env) (task : String) (l : Loop)
    (h : l.taskRunning = false) :
    ∃ ts, (startTask env task l).trace =
        l.trace ++ (merge l.state (resetFields task)) :: ts ∧
      List.Chain HistLe (merge l.state (resetFields task)) ts ∧
      (∀ s ∈ ts, s.currentTask = some task) ∧
      (startTask env task l).state =
        lastD ts (merge l.state (resetFields task)) ∧
      (startTask env task l).taskRunning = false := by
  have hst : startTask env task l =
      { (match runAgentLoop env (updateState { l with taskRunning := true }
            (resetFields task)) with
         | .normal lr => lr
         | .earlyReturn lr => lr
         | .thrown e lr => updateState lr (errorFields e)) with
        taskRunning := false } := by
    unfold startTask
    rw [h]
    simp only [Bool.false_eq_true, if_false]
  have hrct : (merge l.state (resetFields task)).currentTask = some task := by
    simp [merge, resetFields]
  have hbase := runAgentLoop_runOk env
    (updateState { l with taskRunning := true } (resetFields task))
  rcases hres : runAgentLoop env (updateState { l with taskRunning := true }
      (resetFields task)) with lr | lr | ⟨e, lr⟩ <;>
    rw [hres] at hbase hst <;>
    simp only [StepsExit.loop] at hbase
  · obtain ⟨ts, htr, hch, hlast, hct⟩ := hbase
    refine ⟨ts, ?_, hch, ?_, ?_, by rw [hst]⟩
    · rw [hst]
      show lr.trace = _
      rw [htr]
      show (l.trace ++ [merge l.state (resetFields task)]) ++ ts = _
      rw [List.append_assoc, List.singleton_append]
    · intro s hs
      rw [hct s hs]
      exact hrct
    · rw [hst]
      exact hlast.symm
  · obtain ⟨ts, htr, hch, hlast, hct⟩ := hbase
    refine ⟨ts, ?_, hch, ?_, ?_, by rw [hst]⟩
    · rw [hst]
      show lr.trace = _
      rw [htr]
      show (l.trace ++ [merge l.state (resetFields task)]) ++ ts = _
      rw [List.append_assoc, List.singleton_append]
    · intro s hs
      rw [hct s hs]
      exact hrct
    · rw [hst]
      exact hlast.symm
  · have hcatch : RunOk (updateState { l with taskRunning := true }
        (resetFields task)) (updateState lr (errorFields e)) :=
      runOk_trans hbase
        (runOk_update _ _ (by simp [merge, errorFields]) rfl)
    obtain ⟨ts, htr, hch, hlast, hct⟩ := hcatch
    refine ⟨ts, ?_, hch, ?_, ?_, by rw [hst]⟩
    · rw [hst]
      show (updateState lr (errorFields e)).trace = _
      rw [htr]
      show (l.trace ++ [merge l.state (resetFields task)]) ++ ts = _
      rw [List.append_assoc, List.singleton_append]
    · intro s hs
      rw [hct s hs]
      exact hrct
    · rw [hst]
      exact hlast.symm

/-- The loop value produced by one clean (no-rejection, continue-true)
iteration of the step loop at index `i` on step `stp`: the six successive
`updateState` calls of the execute/observe/update phases. -/
def cleanStep (i : Nat) (stp : String) (l : Loop) : Loop :=
  let l1 := updateState l (executingFields stp i l.state.plan.length)
  let result := Val.vstep stp (stp ++ " の実行結果")
  let l2 := updateState l1
    { results := some (l1.state.results ++ [result]),
      history := some (l1.state.history ++
        [{ action := "execution", result := result,
           timestamp := l1.clock }]) }
  let l3 := updateState l2 (observingFields i l2.state.plan.length)
  let observation := Val.vobs result "正常に完了"
  let l4 := updateState l3
    { history := some (l3.state.history ++
        [{ action := "observation", result := observation,
           timestamp := l3.clock }]) }
  let l5 := updateState l4 (updatingFields i l4.state.plan.length)
  updateState l5
    { plan := some l5.state.plan,
      history := some (l5.state.history ++
        [{ action := "plan-update", result := Val.vupd l5.state.plan,
           timestamp := l5.clock }]) }

lemma cleanStep_plan (i : Nat) (stp : String) (l : Loop) :
    (cleanStep i stp l).state.plan = l.state.plan := by
  simp [cleanStep, updateState, merge, executingFields, observingFields,
    updatingFields]

lemma cleanStep_hist (i : Nat) (stp : String) (l : Loop) :
    (cleanStep i stp l).state.history.length =
      l.state.history.length + 3 := by
  simp [cleanStep, updateState, merge, executingFields, observingFields,
    updatingFields]

/-- One clean iteration of the step loop: with no rejection in any phase of
step `i` and the continue flag true, iteration `i` reduces to the recursive
call at `i + 1` on the `cleanStep` loop. -/
lemma clean_iter (env : Env) (i : Nat) (l : Loop)
    (he : env.execThrow i = none) (ho : env.obsThrow i = none)
    (hu : env.updThrow i = none) (hcn : env.updContinue i = true)
    (hi : i < l.state.plan.length) (fuel : Nat) :
    runSteps env (fuel + 1) i l =
      runSteps env fuel (i + 1) (cleanStep i (l.state.plan[i]) l) := by
  rw [runSteps, dif_pos hi]
  simp [executeStep, he, observeResult, ho, updatePlan, hu, hcn, cleanStep,
    updateState, merge, executingFields, observingFields, updatingFields]

/-- The clean step loop runs all remaining iterations, exits normally,
preserves the plan and appends exactly three history entries per step. -/
lemma runSteps_clean (env : Env)
    (hex : ∀ i, env.execThrow i = none) (hob : ∀ i, env.obsThrow i = none)
    (hup : ∀ i, env.updThrow i = none) (hcn : ∀ i, env.updContinue i = true) :
    ∀ (fuel i : Nat) (l : Loop), l.state.plan.length = i + fuel →
      ∃ lf, runSteps env fuel i l = .normal lf ∧
        lf.state.plan = l.state.plan ∧
        lf.state.history.length = l.state.history.length + 3 * fuel := by
  intro fuel
  induction fuel with
  | zero => intro i l hlen; exact ⟨l, by rw [runSteps], rfl, by omega⟩
  | succ fuel ih =>
    intro i l hlen
    have hi : i < l.state.plan.length := by omega
    rw [clean_iter env i l (hex i) (hob i) (hup i) (hcn i) hi fuel]
    obtain ⟨lf, hrun, hplanf, hhistf⟩ := ih (i + 1)
      (cleanStep i (l.state.plan[i]) l)
      (by rw [cleanStep_plan]; omega)
    refine ⟨lf, hrun, by rw [hplanf, cleanStep_plan], ?_⟩
    rw [hhistf, cleanStep_hist]
    omega

/-- `planTask` on a success outcome: the plan is installed, the status is
untouched and one history entry is appended. -/
lemma planTask_ok_state (env : Env) (plan : List String)
    (hp : env.planOutcome = .ok plan) (l : Loop) :
    (planTask env l).state.plan = plan ∧
    (planTask env l).state.status = l.state.status ∧
    (planTask env l).state.history.length = l.state.history.length + 1 := by
  simp [planTask, hp, updateState, merge]

/-- A clean run of `runAgentLoop` from a planning-status loop exits
normally with `1 + 3 * plan.length` history entries added. -/
lemma runAgentLoop_clean (env : Env) (plan : List String)
    (hp : env.planOutcome = .ok plan)
    (hex : ∀ i, env.execThrow i = none) (hob : ∀ i, env.obsThrow i = none)
    (hup : ∀ i, env.updThrow i = none) (hcn : ∀ i, env.updContinue i = true)
    (l1 : Loop) (hst : l1.state.status = .planning) :
    ∃ lf, runAgentLoop env l1 = .normal lf ∧
      lf.state.history.length =
        l1.state.history.length + 1 + 3 * plan.length := by
  obtain ⟨hplan2, hstat2, hhist2⟩ := planTask_ok_state env plan hp l1
  unfold runAgentLoop
  rw [if_neg (by rw [hstat2, hst]; exact fun hc => nomatch hc)]
  obtain ⟨lf, hrun, hplanf, hhistf⟩ :=
    runSteps_clean env hex hob hup hcn ((planTask env l1).state.plan.length)
      0 (planTask env l1) (by omega)
  rw [hrun]
  refine ⟨_, rfl, ?_⟩
  show (merge lf.state completedFields).history.length = _
  have : (merge lf.state completedFields).history = lf.state.history := by
    simp [merge, completedFields]
  rw [this, hhistf, hhist2, hplan2]

/-! ### Simple claim theorems -/

/-- The full progress profile of a source-strategy run, for any task. -/
lemma progress_profile_aux (task : String) :
    (((startTask (sourceEnv task) task initLoop).trace).map
        AgentState.progress) =
      [0, 10, 0, 0, 0, 0, 0, 0, 12, 12, 17, 17, 22, 22, 25, 25, 35, 35,
       45, 45, 37, 37, 52, 52, 67, 67, 100] := by
  simp [startTask, runAgentLoop, planTask, runSteps, executeStep,
    observeResult, updatePlan, updateState, merge, sourceEnv, sourcePlan,
    resetFields, executingFields, observingFields, updatingFields,
    completedFields, errorFields, initLoop, initState]

/-- C1 (counterexample): the sequence of `progress` values carried by the
snapshots delivered during a source run of `startTask` is NOT monotonically
non-decreasing: it drops from 10 (after planning) to 0 at step 0's execute
boundary, and from 45 to 37 between step 2's update and step 3's execute
boundaries. -/
theorem C1_not_monotone :
    ¬ List.Chain' (· ≤ ·)
      (((startTask (sourceEnv "Buy groceries") "Buy groceries"
          initLoop).trace).map AgentState.progress) := by
  rw [progress_profile_aux]
  simp [List.chain'_cons]

/-- C1 (amended): for every task accepted by a `startTask` run over the
source strategies (which always plan four steps and never stop early), the
delivered progress sequence is exactly
`0,10,0,0,0,0,0,0,12,12,17,17,22,22,25,25,35,35,45,45,37,37,52,52,67,67,100`:
progress is set to 0 in the reset snapshot when the task is accepted, is
non-decreasing within each step's execute→observe→update phases, and ends
at 100 in the terminal snapshot — but it is not globally non-decreasing
(it drops from 10 to 0 after planning and from 45 to 37 across the
step 2 / step 3 boundary), and it is also set to 0 at step 0's execute
boundary, not only at task acceptance. -/
theorem C1_progress_profile (task : String) :
    (((startTask (sourceEnv task) task initLoop).trace).map
        AgentState.progress) =
      [0, 10, 0, 0, 0, 0, 0, 0, 12, 12, 17, 17, 22, 22, 25, 25, 35, 35,
       45, 45, 37, 37, 52, 52, 67, 67, 100] :=
  progress_profile_aux task

/-- C2 (code evaluated at the failing input): after an abnormal close has
scheduled a reconnect timer, `disconnect()` resets the attempt counter to 0
but does NOT cancel the pending timer — the source stores no handle to the
`setTimeout` and never calls `clearTimeout` — so the scheduled `connect()`
still fires after the explicit disconnect and re-establishes a
connection. -/
theorem C2_reconnect_survives_disconnect :
    (disconnect (abClose (handleOpen (connect
        (newWSManager "s"))))).reconnectAttempts = 0 ∧
    (disconnect (abClose (handleOpen (connect
        (newWSManager "s"))))).pending = [1000] ∧
    (fireReconnect (disconnect (abClose (handleOpen (connect
        (newWSManager "s")))))).socket = some ReadyState.connecting := by
  refine ⟨rfl, ?_, rfl⟩
  norm_num [disconnect, abClose, handleClose, handleOpen, connect,
    newWSManager, wsUpdateState, maxReconnectAttempts, reconnectDelay]

/-- C3 (counterexample): registering the same callback value twice and then
invoking one of the two unsubscribe functions removes BOTH registrations
(the registry is left empty, and the callback is no longer invoked), for
`AgentLoop.onStateUpdate` and `WebSocketManager.addMessageListener`
alike — the `filter(c => c !== callback)` removal is keyed by callback
value, not by registration identity. -/
theorem C3_duplicate_unsubscribe_removes_both :
    offStateUpdate (onStateUpdate (onStateUpdate [] 7) 7) 7 = [] ∧
    removeMessageListener
      (addMessageListener (addMessageListener [] 7) 7) 7 = [] ∧
    7 ∉ offStateUpdate (onStateUpdate (onStateUpdate [] 7) 7) 7 := by
  decide

/-- Filtering out one value leaves the count of every other value intact. -/
lemma count_filter_ne (t : List Nat) (cb c : Nat) (hc : c ≠ cb) :
    (t.filter (fun x => x ≠ cb)).count c = t.count c := by
  induction t with
  | nil => rfl
  | cons a t ih =>
    by_cases ha : a = cb
    · subst ha
      simpa [List.filter_cons, List.count_cons, hc] using ih
    · simpa [List.filter_cons, ha, List.count_cons] using ih

/-- C3 (amended): invoking the returned unsubscribe function removes EVERY
registration whose callback equals the given callback (so the callback is
no longer registered at all), while registrations of any other callback are
untouched (their multiplicity is preserved); in particular, for a callback
registered exactly once, unsubscribing removes exactly that registration. -/
theorem C3_unsubscribe_by_value (regs : List Nat) (cb c : Nat) :
    cb ∉ offStateUpdate regs cb ∧
    cb ∉ removeMessageListener regs cb ∧
    (c ≠ cb →
      (offStateUpdate regs cb).count c = regs.count c ∧
      (removeMessageListener regs cb).count c = regs.count c) := by
  have hmem : cb ∉ regs.filter (fun x => x ≠ cb) := by
    simp [List.mem_filter]
  exact ⟨hmem, hmem,
    fun hc => ⟨count_filter_ne regs cb c hc, count_filter_ne regs cb c hc⟩⟩

/-- Witness for `C3_unsubscribe_by_value` at a concrete registry. -/
theorem C3_unsubscribe_by_value_witness :
    2 ∉ offStateUpdate [1, 2] 2 ∧
    (offStateUpdate [1, 2] 2).count 1 = ([1, 2] : List Nat).count 1 := by
  exact ⟨(C3_unsubscribe_by_value [1, 2] 2 1).1,
    ((C3_unsubscribe_by_value [1, 2] 2 1).2.2 (by decide)).1⟩

/-- C4 (counterexample): after `getWebSocketManager("s1")` has created the
singleton, `getWebSocketManager("s2")` returns a manager whose `sessionId`
is still `"s1"` — the two distinct sessions share one manager instead of
each getting their own channel. -/
theorem C4_second_session_gets_first_manager :
    (getWebSocketManager (getWebSocketManager none "s1").2 "s2").1.sessionId
      = "s1" ∧ ("s1" : String) ≠ "s2" := by
  exact ⟨rfl, by decide⟩

/-- C4 (amended): `getWebSocketManager` maintains a process-wide singleton:
the first call creates a manager bound to the first caller's session id,
and every subsequent call returns that same stored manager unchanged,
whatever `sessionId` argument is passed. -/
theorem C4_singleton_manager (m : WSManager) (sid : String) :
    getWebSocketManager none sid = (newWSManager sid, some (newWSManager sid))
    ∧ getWebSocketManager (some m) sid = (m, some m) := ⟨rfl, rfl⟩

/-- C6: while the single-flight guard is set, `startTask` returns without
changing anything — no state reset, no new history entries, no snapshot
delivered, no error surfaced: the whole loop value is unchanged. -/
theorem C6_busy_reject_is_noop (env : Env) (task : String) (l : Loop)
    (h : l.taskRunning = true) : startTask env task l = l := by
  simp [startTask, h]

/-- Witness for `C6_busy_reject_is_noop` on a concrete busy loop. -/
theorem C6_busy_reject_is_noop_witness :
    startTask (sourceEnv "b") "b" { initLoop with taskRunning := true }
      = { initLoop with taskRunning := true } :=
  C6_busy_reject_is_noop (sourceEnv "b") "b"
    { initLoop with taskRunning := true } rfl

/-- C8: from a freshly opened channel, five successive abnormal closes
schedule reconnects with delays `1000, 1500, 2250, 3375, 5062.5` (the
attempt counter reaching 5); a sixth abnormal close schedules nothing
further; an open event after three failed attempts resets the counter to 0,
and the next abnormal close schedules its retry at delay 1000 again. -/
theorem C8_backoff_sequence :
    (abClose (abClose (abClose (abClose (abClose (handleOpen (connect
        (newWSManager "s")))))))).pending
      = [1000, 1500, 2250, 3375, 10125 / 2] ∧
    (abClose (abClose (abClose (abClose (abClose (handleOpen (connect
        (newWSManager "s")))))))).reconnectAttempts = 5 ∧
    (abClose (abClose (abClose (abClose (abClose (abClose (handleOpen
        (connect (newWSManager "s"))))))))).pending
      = [1000, 1500, 2250, 3375, 10125 / 2] ∧
    (handleOpen (abClose (abClose (abClose (handleOpen (connect
        (newWSManager "s"))))))).reconnectAttempts = 0 ∧
    (abClose (handleOpen (abClose (abClose (abClose (handleOpen (connect
        (newWSManager "s")))))))).pending
      = [1000, 1500, 2250, 1000] := by
  refine ⟨?_, rfl, ?_, rfl, ?_⟩ <;>
    norm_num [abClose, handleClose, handleOpen, connect, newWSManager,
      wsUpdateState, maxReconnectAttempts, reconnectDelay]

/-- C9: for the task `"Buy groceries"` (planned into 4 steps by the source
strategy, no failures, continue always true), the delivered snapshots carry
exactly these status/progress pairs: at each step `i` the execute boundary
shows `floor(i/4*50)` (0, 12, 25, 37), the observe boundary
`floor(i/4*70)` (0, 17, 35, 52) and the update boundary `floor(i/4*90)`
(0, 22, 45, 67); the run ends with the terminal snapshot
`status = completed, progress = 100`. -/
theorem C9_four_step_progress_scenario :
    (((startTask (sourceEnv "Buy groceries") "Buy groceries"
        initLoop).trace).map (fun s => (s.status, s.progress))) =
      [(.planning, 0), (.planning, 10),
       (.executing, 0), (.executing, 0), (.observing, 0), (.observing, 0),
       (.updating, 0), (.updating, 0),
       (.executing, 12), (.executing, 12), (.observing, 17),
       (.observing, 17), (.updating, 22), (.updating, 22),
       (.executing, 25), (.executing, 25), (.observing, 35),
       (.observing, 35), (.updating, 45), (.updating, 45),
       (.executing, 37), (.executing, 37), (.observing, 52),
       (.observing, 52), (.updating, 67), (.updating, 67),
       (.completed, 100)] := by
  rfl

end WinManus

namespace WinManus

/-- An environment whose execute strategy rejects at every step. -/
def failEnv : Env :=
  { planOutcome := .ok ["a", "b"], execThrow := fun _ => some "boom",
    obsThrow := fun _ => none, updThrow := fun _ => none,
    updContinue := fun _ => true }

/-- C5: whatever the strategy outcomes, `startTask` releases the
single-flight guard when it returns; each throwing phase delivers, as the
very next snapshot, a state with `status = error` and the failure message
in `error` (and so does a planning failure and the outer catch for the
whole run); and a subsequent `startTask` call is accepted — it appends the
reset snapshot for the new task and begins a new run. -/
theorem C5_phase_failure_recovery (env : Env) (task : String) (l : Loop)
    (h : l.taskRunning = false) :
    (startTask env task l).taskRunning = false ∧
    (∀ (i : Nat) (step e : String) (lx : Loop), env.execThrow i = some e →
      ∃ lx2, executeStep env i step lx = .thrown e lx2 ∧
        lx2.trace = lx.trace ++ [lx2.state] ∧
        lx2.state.status = .error ∧ lx2.state.error = some e) ∧
    (∀ (i : Nat) (r : Val) (e : String) (lx : Loop), env.obsThrow i = some e →
      ∃ lx2, observeResult env i r lx = .thrown e lx2 ∧
        lx2.trace = lx.trace ++ [lx2.state] ∧
        lx2.state.status = .error ∧ lx2.state.error = some e) ∧
    (∀ (i : Nat) (ob : Val) (e : String) (lx : Loop), env.updThrow i = some e →
      ∃ lx2, updatePlan env i ob lx = .thrown e lx2 ∧
        lx2.trace = lx.trace ++ [lx2.state] ∧
        lx2.state.status = .error ∧ lx2.state.error = some e) ∧
    (∀ e, env.planOutcome = .error e →
      (startTask env task l).state.status = .error ∧
      (startTask env task l).state.error = some e) ∧
    (∀ (e : String) (lr : Loop),
      runAgentLoop env (updateState { l with taskRunning := true }
        (resetFields task)) = .thrown e lr →
      (startTask env task l).state.status = .error ∧
      (startTask env task l).state.error = some e) ∧
    (∀ (env2 : Env) (task2 : String), ∃ ts,
      (startTask env2 task2 (startTask env task l)).trace =
        (startTask env task l).trace ++
          (merge (startTask env task l).state (resetFields task2)) :: ts) := by
  have hg : (startTask env task l).taskRunning = false := by
    obtain ⟨ts, -, -, -, -, hrun⟩ := startTask_shape env task l h
    exact hrun
  refine ⟨hg, ?_, ?_, ?_, ?_, ?_, ?_⟩
  · intro i step e lx he
    exact ⟨updateState lx (errorFields e), by simp [executeStep, he],
      rfl, by simp [updateState, merge, errorFields],
      by simp [updateState, merge, errorFields]⟩
  · intro i r e lx he
    exact ⟨updateState lx (errorFields e), by simp [observeResult, he],
      rfl, by simp [updateState, merge, errorFields],
      by simp [updateState, merge, errorFields]⟩
  · intro i ob e lx he
    exact ⟨updateState lx (errorFields e), by simp [updatePlan, he],
      rfl, by simp [updateState, merge, errorFields],
      by simp [updateState, merge, errorFields]⟩
  · intro e he
    constructor <;>
      simp [startTask, h, runAgentLoop, planTask, he, updateState, merge,
        errorFields, resetFields]
  · intro e lr hrun
    have hs : startTask env task l =
        { updateState lr (errorFields e) with taskRunning := false } := by
      unfold startTask
      rw [h]
      simp only [Bool.false_eq_true, if_false, hrun]
    rw [hs]
    constructor <;> simp [updateState, merge, errorFields]
  · intro env2 task2
    obtain ⟨ts, htr, -, -, -, -⟩ :=
      startTask_shape env2 task2 (startTask env task l) hg
    exact ⟨ts, htr⟩

/-- Witness for `C5_phase_failure_recovery`: a run whose first execute
phase rejects with "boom" ends with the guard released and the error
captured. -/
theorem C5_phase_failure_recovery_witness :
    (startTask failEnv "t" initLoop).taskRunning = false ∧
    (startTask failEnv "t" initLoop).state.status = .error ∧
    (startTask failEnv "t" initLoop).state.error = some "boom" := by
  refine ⟨(C5_phase_failure_recovery failEnv "t" initLoop rfl).1, ?_, ?_⟩
  · exact ((C5_phase_failure_recovery failEnv "t" initLoop rfl).2.2.2.2.2.1
      "boom" ((runAgentLoop failEnv (updateState
        { initLoop with taskRunning := true } (resetFields "t"))).loop)
      (by rfl)).1
  · exact ((C5_phase_failure_recovery failEnv "t" initLoop rfl).2.2.2.2.2.1
      "boom" ((runAgentLoop failEnv (updateState
        { initLoop with taskRunning := true } (resetFields "t"))).loop)
      (by rfl)).2

/-- C7: for a run whose decomposition yields `plan`, with no phase
rejection and the continue flag always true (so all `plan.length` steps
run, with no early stop), the final history length is exactly
`1 + 3 * plan.length` — one planning entry plus execution, observation and
plan-update entries per step — and along the whole run the history lengths
of the delivered snapshots never decrease. -/
theorem C7_history_accounting (env : Env) (task : String) (l : Loop)
    (plan : List String) (h : l.taskRunning = false)
    (hp : env.planOutcome = .ok plan)
    (hex : ∀ i, env.execThrow i = none) (hob : ∀ i, env.obsThrow i = none)
    (hup : ∀ i, env.updThrow i = none) (hcn : ∀ i, env.updContinue i = true) :
    (startTask env task l).state.history.length = 1 + 3 * plan.length ∧
    List.Chain' HistLe ((startTask env task l).trace.drop l.trace.length) := by
  constructor
  · have hreset : (updateState { l with taskRunning := true }
        (resetFields task)).state.status = .planning := by
      simp [updateState, merge, resetFields]
    obtain ⟨lf, hrun, hhist⟩ := runAgentLoop_clean env plan hp hex hob hup hcn
      (updateState { l with taskRunning := true } (resetFields task)) hreset
    have hs : startTask env task l = { lf with taskRunning := false } := by
      unfold startTask
      rw [h]
      simp only [Bool.false_eq_true, if_false, hrun]
    rw [hs]
    show lf.state.history.length = _
    rw [hhist]
    have h0 : (updateState { l with taskRunning := true }
        (resetFields task)).state.history.length = 0 := by
      simp [updateState, merge, resetFields]
    rw [h0]
  · obtain ⟨ts, htr, hch, -, -, -⟩ := startTask_shape env task l h
    rw [htr, List.drop_left]
    exact hch

/-- Witness for `C7_history_accounting` on the source strategies. -/
theorem C7_history_accounting_witness :
    (startTask (sourceEnv "t") "t" initLoop).state.history.length =
      1 + 3 * (sourcePlan "t").length :=
  (C7_history_accounting (sourceEnv "t") "t" initLoop (sourcePlan "t") rfl
    rfl (fun _ => rfl) (fun _ => rfl) (fun _ => rfl) (fun _ => rfl)).1

/-- C10: every state mutation goes through `updateState`, whose `merge`
leaves every field not named in the partial update exactly as it was; in
particular the observe-phase update preserves `plan` and `results`, and
`currentTask`, set once at task acceptance, is carried unchanged by every
snapshot of the run. -/
theorem C10_update_frame :
    (∀ (s : AgentState) (p : PartialState),
      (p.status = none → (merge s p).status = s.status) ∧
      (p.currentTask = none → (merge s p).currentTask = s.currentTask) ∧
      (p.plan = none → (merge s p).plan = s.plan) ∧
      (p.progress = none → (merge s p).progress = s.progress) ∧
      (p.currentStep = none → (merge s p).currentStep = s.currentStep) ∧
      (p.results = none → (merge s p).results = s.results) ∧
      (p.error = none → (merge s p).error = s.error) ∧
      (p.history = none → (merge s p).history = s.history)) ∧
    (∀ (s : AgentState) (i n : Nat),
      (merge s (observingFields i n)).plan = s.plan ∧
      (merge s (observingFields i n)).results = s.results) ∧
    (∀ (env : Env) (task : String) (l : Loop), l.taskRunning = false →
      ∀ s ∈ (startTask env task l).trace.drop l.trace.length,
        s.currentTask = some task) := by
  refine ⟨?_, ?_, ?_⟩
  · intro s p
    refine ⟨fun hf => ?_, fun hf => ?_, fun hf => ?_, fun hf => ?_,
      fun hf => ?_, fun hf => ?_, fun hf => ?_, fun hf => ?_⟩ <;>
      simp [merge, hf]
  · intro s i n
    exact ⟨by simp [merge, observingFields], by simp [merge, observingFields]⟩
  · intro env task l h s hs
    obtain ⟨ts, htr, -, hct, -, -⟩ := startTask_shape env task l h
    rw [htr, List.drop_left] at hs
    rcases List.mem_cons.mp hs with he | hm
    · rw [he]
      simp [merge, resetFields]
    · exact hct s hm

/-- Witness for `C10_update_frame` on concrete inputs. -/
theorem C10_update_frame_witness :
    (merge initState ({} : PartialState)).status = initState.status ∧
    (merge initState (observingFields 1 4)).plan = initState.plan :=
  ⟨(C10_update_frame.1 initState {}).1 rfl,
    (C10_update_frame.2.1 initState 1 4).1⟩

end WinManus
